import Mathlib

/-!
# Verification of the coap-cli request-construction layer

Shallow embedding of the `coap-cli` sources (`src/main.rs`, `src/coap_helper.rs`):
a command-line CoAP client that parses a CoAP URL, translates content-format
tokens, assembles a request with Uri-Host/Uri-Path/Uri-Query/Content-Format/
Accept options and a payload, sends it through a transport collaborator and
prints the response.

External collaborators (the `url` crate parser, the `coap_lite` content-format
registry, file reading) are modelled explicitly; every definition that models
a collaborator rather than repository code says so in its doc comment.
-/

deriving instance DecidableEq for Except

namespace CoapCli

/-- The error values produced by the program.  In the source every error is an
`std::io::Error` with kind `InvalidInput` and a message string; we keep them as
a closed inductive carrying exactly the data the message interpolates. -/
inductive CoapError where
  /-- The io error with message `url error` in `parse_coap_url`. -/
  | urlError
  /-- The io error with message `host error` in `parse_coap_url`. -/
  | hostError
  /-- The unknown-numeric-code error of `parse_content_format`, message
  `invalid content format number: s`. -/
  | invalidContentFormatNumber (s : String)
  /-- The unsupported-string error of `parse_content_format`, message
  `unsupported content format string: s`. -/
  | unsupportedContentFormatString (s : String)
  /-- The missing payload-source error of `execute_command`. -/
  | missingPayloadSource
  /-- The not-a-regular-file error of `load_data_file`. -/
  | pathMustBeFile (p : String)
  /-- the io error `std::fs::read_to_string` returns on non-UTF-8 contents. -/
  | invalidUtf8Data
  /-- any error surfaced by the transport collaborator (`CoAPClient`). -/
  | transport (m : String)
  deriving Repr, DecidableEq

/-- The message `Display` prints for each error (`eprintln!("ERROR: {}", err)`
shows exactly this string). -/
def CoapError.message : CoapError → String
  | .urlError => "url error"
  | .hostError => "host error"
  | .invalidContentFormatNumber s => "invalid content format number: " ++ s
  | .unsupportedContentFormatString s => "unsupported content format string: " ++ s
  | .missingPayloadSource => "must specify either data string or file path"
  | .pathMustBeFile p => "Error: path must be file: " ++ p
  | .invalidUtf8Data => "stream did not contain valid UTF-8"
  | .transport m => m

/-- The observable output of `url::Url::parse` that `parse_coap_url` consumes:
`host_str()`, `port()`, `path()`, `query()`. -/
structure UrlParts where
  hostStr : Option String
  port : Option Nat
  path : String
  query : Option String
  deriving Repr, DecidableEq

/-- Split a character list at the first occurrence of `c`; `none` when `c`
does not occur. -/
def splitAtChar (c : Char) : List Char → Option (List Char × List Char)
  | [] => none
  | x :: rest =>
    if x = c then some ([], rest)
    else (splitAtChar c rest).map (fun p => (x :: p.1, p.2))

/-- Digits of a port string to a number. -/
def digitsToNat (cs : List Char) : Nat :=
  cs.foldl (fun a c => a * 10 + (c.toNat - 48)) 0

/-- Modelled from the spec: the `url` crate's port parsing inside an authority.
An empty port part yields no port; a digit string must fit in 16 bits or the
whole URL fails to parse. -/
def parsePort (ds : List Char) : Option (Option Nat) :=
  if ds = [] then some none
  else if ds.all Char.isDigit then
    let n := digitsToNat ds
    if n ≤ 65535 then some (some n) else none
  else none

/-- Characters the modelled parser accepts inside a bracketed IPv6 literal. -/
def isV6Char (c : Char) : Bool :=
  c.isDigit || ('a' ≤ c && c ≤ 'f') || ('A' ≤ c && c ≤ 'F') || c = ':' || c = '.'

/-- Characters the modelled parser accepts in an unbracketed (opaque) host. -/
def isHostChar (c : Char) : Bool :=
  !(c = '[' || c = ']' || c = ':' || c = '@' || c = '/' || c = '?' || c = '#' || c = '\n')

/-- Modelled from the spec: the `url` crate's authority parsing for a
non-special scheme.  A host wrapped in `[...]` must hold a non-empty IPv6-style
literal and is returned with its brackets kept (as `Url::host_str` does); an
unbracketed host may be empty (non-special schemes allow an empty host) and may
not contain bracket, separator or whitespace characters. -/
def parseHostPort (auth : List Char) : Option (String × Option Nat) :=
  match auth with
  | '[' :: rest =>
    match splitAtChar ']' rest with
    | none => none
    | some (inner, after) =>
      if inner ≠ [] && inner.all isV6Char then
        match after with
        | [] => some (String.mk ('[' :: inner ++ [']']), none)
        | ':' :: ds => (parsePort ds).map (fun p => (String.mk ('[' :: inner ++ [']']), p))
        | _ => none
      else none
  | _ =>
    match splitAtChar ':' auth with
    | none => if auth.all isHostChar then some (String.mk auth, none) else none
    | some (h, ds) =>
      if h.all isHostChar then (parsePort ds).map (fun p => (String.mk h, p)) else none

/-- Modelled from the spec: `url::Url::parse` restricted to the generic-syntax
subset the client exercises — `scheme ":" [ "//" authority ] path [ "?" query ]
[ "#" fragment ]`, with no userinfo.  `none` models a `Url::parse` error.  A
URL without `//` has no host component, mirroring the crate's behaviour for
non-special schemes. -/
def urlParse (s : String) : Option UrlParts :=
  match splitAtChar ':' s.toList with
  | none => none
  | some (scheme, rest) =>
    match scheme with
    | [] => none
    | c :: cs =>
      if c.isAlpha && cs.all (fun x => x.isAlphanum || x = '+' || x = '-' || x = '.') then
        match rest with
        | '/' :: '/' :: rest2 =>
          let auth := rest2.takeWhile (fun x => !(x = '/' || x = '?' || x = '#'))
          let tail := rest2.dropWhile (fun x => !(x = '/' || x = '?' || x = '#'))
          match parseHostPort auth with
          | none => none
          | some (h, p) =>
            let pathCs := tail.takeWhile (fun x => !(x = '?' || x = '#'))
            let qf := tail.dropWhile (fun x => !(x = '?' || x = '#'))
            let query : Option String :=
              match qf with
              | '?' :: qrest => some (String.mk (qrest.takeWhile (fun x => x ≠ '#')))
              | _ => none
            some ⟨some h, p, String.mk pathCs, query⟩
        | _ =>
          let pathCs := rest.takeWhile (fun x => !(x = '?' || x = '#'))
          let qf := rest.dropWhile (fun x => !(x = '?' || x = '#'))
          let query : Option String :=
            match qf with
            | '?' :: qrest => some (String.mk (qrest.takeWhile (fun x => x ≠ '#')))
            | _ => none
          some ⟨none, none, String.mk pathCs, query⟩
      else none

/-- The bracket-stripping regex replace in `parse_coap_url`:
`Regex::new(r"^\[(.*?)]$").replace(&host, "$1")`.  The pattern matches exactly
when the whole string is `[` middle `]` with no newline in the middle (`.` does
not match `\n`); the replacement is the middle. -/
def stripBrackets (s : String) : String :=
  let cs := s.toList
  if 2 ≤ cs.length ∧ cs.head? = some '[' ∧ cs.getLast? = some ']'
      ∧ (cs.drop 1).dropLast.all (fun c => c ≠ '\n') then
    String.mk ((cs.drop 1).dropLast)
  else s

/-- The URL resolver `parse_coap_url` (`src/main.rs` lines 77–100, identical in
`src/coap_helper.rs` lines 9–32): parse the URL, reject an absent or empty
host, strip surrounding brackets from the host, and pass port, path and query
through verbatim. -/
def parse_coap_url (url : String) : Except CoapError (String × Option Nat × String × Option String) :=
  match urlParse url with
  | none => .error .urlError
  | some u =>
    match u.hostStr with
    | none => .error .hostError
    | some h =>
      if h = "" then .error .hostError
      else .ok (stripBrackets h, u.port, u.path, u.query)

/-- Rust's `str::parse::<usize>()`: an optional leading `+`, then one or more
ASCII digits and nothing else; the value must fit in the 64-bit `usize`. -/
def parseUsize (s : String) : Option Nat :=
  let cs :=
    match s.toList with
    | '+' :: rest => rest
    | cs => cs
  if cs = [] then none
  else if cs.all Char.isDigit then
    let n := digitsToNat cs
    if n < 2 ^ 64 then some n else none
  else none

/-- Modelled from the spec: the content-format code space recognised by
`coap_lite::ContentFormat::try_from` (the IANA CoAP content-format registry as
implemented by the `coap_lite` crate, which is not part of this repository).
Contains in particular 0 (`text/plain`), 41 (`application/xml`),
42 (`application/octet-stream`), 50 (`application/json`) and 60
(`application/cbor`); every registered code fits in 16 bits. -/
def contentFormatCodes : List Nat :=
  [0, 16, 17, 18, 40, 41, 42, 47, 50, 51, 52, 60, 61, 62, 63,
   96, 97, 98, 101, 110, 111, 112, 113, 114, 115, 256, 271, 272]

/-- A content format, compared and encoded by its registry code (the
`coap_lite::ContentFormat` enum is in bijection with its code set). -/
abbrev ContentFormat := Nat

/-- The content-format translator `parse_content_format` (`src/main.rs` lines
102–124, identical in
`src/coap_helper.rs` lines 34–56): a token that parses as a `usize` is looked
up in the registry; otherwise it is matched against five fixed MIME strings. -/
def parse_content_format (s : String) : Except CoapError ContentFormat :=
  match parseUsize s with
  | some num =>
    if num ∈ contentFormatCodes then .ok num
    else .error (.invalidContentFormatNumber s)
  | none =>
    match s with
    | "text/plain" => .ok 0
    | "application/json" => .ok 50
    | "application/xml" => .ok 41
    | "application/cbor" => .ok 60
    | "application/octet-stream" => .ok 42
    | _ => .error (.unsupportedContentFormatString s)

/-- The wire conversion `content_format_as_u16`, i.e.
`usize::from(cf).try_into().unwrap()`.  The
checked conversion cannot fail because every registered code fits in 16 bits
(`registry_codes_fit_u16` below), so it is the identity on the codes the
program produces. -/
def content_format_as_u16 (cf : ContentFormat) : Nat := cf

/-- CoAP option numbers used by the program (RFC 7252 §5.10). -/
def uriHostNum : Nat := 3
def uriPathNum : Nat := 11
def contentFormatNum : Nat := 12
def uriQueryNum : Nat := 15
def acceptNum : Nat := 17

/-- An option value as the program writes it: either the raw bytes of a string
(`s.as_bytes().to_vec()`) or a `coap_lite::OptionValueU16` holding a 16-bit
code. -/
inductive OptVal where
  | str (s : String)
  | u16 (n : Nat)
  deriving Repr, DecidableEq

/-- The request method (`coap_lite::RequestType` restricted to the four
variants the CLI issues). -/
inductive Method where
  | get | post | put | delete
  deriving Repr, DecidableEq

/-- The observable state of a `CoapRequest`: its method, its option store
(`coap_lite` keeps, per option number, an ordered list of values) and its
payload bytes (here the string whose bytes the source writes). -/
structure Packet where
  method : Option Method := none
  options : List (Nat × List OptVal) := []
  payload : String := ""
  deriving Repr, DecidableEq

/-- Update an association list at a key, appending a new entry when absent. -/
def setAssoc : List (Nat × List OptVal) → Nat → List OptVal → List (Nat × List OptVal)
  | [], n, v => [(n, v)]
  | (k, w) :: rest, n, v =>
    if k = n then (n, v) :: rest else (k, w) :: setAssoc rest n v

/-- The values stored for an option number (empty list when the option was
never set), i.e. `message.get_option`. -/
def Packet.getOption (p : Packet) (num : Nat) : List OptVal :=
  match p.options.find? (fun kv => kv.1 = num) with
  | some kv => kv.2
  | none => []

/-- Replace the whole value list of an option (`message.set_option`). -/
def Packet.setOption (p : Packet) (num : Nat) (vals : List OptVal) : Packet :=
  { p with options := setAssoc p.options num vals }

/-- Append one value to the option's list, creating it when absent
(`message.add_option` and `add_option_as`). -/
def Packet.addOption (p : Packet) (num : Nat) (v : OptVal) : Packet :=
  p.setOption num (p.getOption num ++ [v])

/-- Set the request method (`CoapRequest::set_method`). -/
def Packet.setMethod (p : Packet) (m : Method) : Packet := { p with method := some m }

/-- The helper `CoapRequestHelper::set_domain` (`src/main.rs` lines 141–144): one
Uri-Host option holding the domain's bytes. -/
def set_domain (r : Packet) (domain : String) : Packet :=
  r.setOption uriHostNum [.str domain]

/-- The helper `CoapRequestHelper::set_query` (`src/main.rs` lines 146–149): the whole
raw query string as a single Uri-Query option value. -/
def set_query (r : Packet) (query : String) : Packet :=
  r.setOption uriQueryNum [.str query]

/-- The helper `CoapRequestHelper::add_accept` (`src/main.rs` lines 151–156): append one
Accept option holding the 16-bit code. -/
def add_accept (r : Packet) (cf : ContentFormat) : Packet :=
  r.addOption acceptNum (.u16 (content_format_as_u16 cf))

/-- The helper `CoapRequestHelper::set_content_format` (`src/main.rs` lines 158–163):
exactly one Content-Format option holding the 16-bit code. -/
def set_content_format (r : Packet) (cf : ContentFormat) : Packet :=
  r.setOption contentFormatNum [.u16 (content_format_as_u16 cf)]

/-- The helper `CoapRequestHelper::set_data` (`src/main.rs` lines 165–167): the payload
is replaced verbatim. -/
def set_data (r : Packet) (data : String) : Packet := { r with payload := data }

/-- Split a character list on a separator character; like Rust's
`str::split`, the empty input yields one empty segment. -/
def splitOnChar (c : Char) : List Char → List (List Char)
  | [] => [[]]
  | x :: rest =>
    let r := splitOnChar c rest
    if x = c then [] :: r
    else
      match r with
      | h :: t => (x :: h) :: t
      | [] => [[x]]

/-- Modelled from the spec: `coap_lite::CoapRequest::set_path` (external
crate) — strips one leading `/`, splits the remainder on `/` and stores the
segments as the Uri-Path option values. -/
def set_path (r : Packet) (path : String) : Packet :=
  let cs :=
    match path.toList with
    | '/' :: rest => rest
    | cs => cs
  r.setOption uriPathNum ((splitOnChar '/' cs).map (fun seg => OptVal.str (String.mk seg)))

/-- The request skeleton builder `coap_request_for_url` (`src/main.rs` lines
170–179): parse the URL, set
domain and path, set the query as one option value when present. -/
def coap_request_for_url (url : String) :
    Except CoapError (String × Option Nat × Packet) :=
  match parse_coap_url url with
  | .error e => .error e
  | .ok (host, port, path, query) =>
    let request : Packet := {}
    let request := set_domain request host
    let request := set_path request path
    let request :=
      match query with
      | some q => set_query request q
      | none => request
    .ok (host, port, request)

/-- The accept loop shared by all four commands:
`for cf in accept { request.add_accept(parse_content_format(cf)?); }`. -/
def add_accepts (r : Packet) (accepts : List String) : Except CoapError Packet :=
  match accepts with
  | [] => .ok r
  | cf :: rest =>
    match parse_content_format cf with
    | .error e => .error e
    | .ok c => add_accepts (add_accept r c) rest

/-- The codes the accept loop obtains from its tokens: `parse_content_format`
mapped over the list, failing at the first bad token exactly as the loop's
`?` does. -/
def parseFormats : List String → Except CoapError (List ContentFormat)
  | [] => .ok []
  | s :: rest =>
    match parse_content_format s with
    | .error e => .error e
    | .ok c =>
      match parseFormats rest with
      | .error e => .error e
      | .ok cs => .ok (c :: cs)

/-- Everything `coap_send` receives: the connection target pieces and the
fully assembled request. -/
structure SendSpec where
  host : String
  port : Option Nat
  timeout : Nat
  request : Packet
  deriving Repr, DecidableEq

/-- The connection target `coap_send` (`src/main.rs` lines 181–191) uses:
`CoAPClient::new((host, port.unwrap_or(5683)))`. -/
def coap_send_addr (spec : SendSpec) : String × Nat :=
  (spec.host, spec.port.getD 5683)

/-- The response as the program observes it after `coap_send`: the displayed
status code and the payload text after `String::from_utf8_lossy`.  (Lossy
UTF-8 decoding happens inside the collaborator boundary of this model.) -/
structure CoapResp where
  code : String
  payloadText : String
  deriving Repr, DecidableEq

/-- The transport collaborator: `coap_send` = connect, set timeout, send,
receive.  Everything behind this arrow is the `coap` crate. -/
def Transport : Type := SendSpec → Except CoapError CoapResp

/-- The pure prefix of `coap_get` (`src/main.rs` lines 193–201): build the
request and stop at the `coap_send` boundary. -/
def coap_get_prepare (url : String) (timeout : Nat) (accepts : List String) :
    Except CoapError SendSpec :=
  match coap_request_for_url url with
  | .error e => .error e
  | .ok (host, port, request) =>
    match add_accepts (request.setMethod .get) accepts with
    | .error e => .error e
    | .ok request => .ok ⟨host, port, timeout, request⟩

/-- The pure prefix of `coap_post` (`src/main.rs` lines 212–232): build the
request — method, accepts, optional content format, payload — and stop at the
`coap_send` boundary. -/
def coap_post_prepare (url : String) (timeout : Nat) (accepts : List String)
    (contentFormat : Option String) (data : String) : Except CoapError SendSpec :=
  match coap_request_for_url url with
  | .error e => .error e
  | .ok (host, port, request) =>
    match add_accepts (request.setMethod .post) accepts with
    | .error e => .error e
    | .ok request =>
      match (match contentFormat with
             | some cf =>
               match parse_content_format cf with
               | .error e => .error e
               | .ok c => .ok (set_content_format request c)
             | none => Except.ok request : Except CoapError Packet) with
      | .error e => .error e
      | .ok request => .ok ⟨host, port, timeout, set_data request data⟩

/-- The pure prefix of `coap_put` (`src/main.rs` lines 242–262): identical to
`coap_post` except for the method. -/
def coap_put_prepare (url : String) (timeout : Nat) (accepts : List String)
    (contentFormat : Option String) (data : String) : Except CoapError SendSpec :=
  match coap_request_for_url url with
  | .error e => .error e
  | .ok (host, port, request) =>
    match add_accepts (request.setMethod .put) accepts with
    | .error e => .error e
    | .ok request =>
      match (match contentFormat with
             | some cf =>
               match parse_content_format cf with
               | .error e => .error e
               | .ok c => .ok (set_content_format request c)
             | none => Except.ok request : Except CoapError Packet) with
      | .error e => .error e
      | .ok request => .ok ⟨host, port, timeout, set_data request data⟩

/-- The pure prefix of `coap_delete` (`src/main.rs` lines 272–282). -/
def coap_delete_prepare (url : String) (timeout : Nat) (accepts : List String) :
    Except CoapError SendSpec :=
  match coap_request_for_url url with
  | .error e => .error e
  | .ok (host, port, request) =>
    match add_accepts (request.setMethod .delete) accepts with
    | .error e => .error e
    | .ok request => .ok ⟨host, port, timeout, request⟩

/-- UTF-8 decoding of a byte list, following the exact validation Rust's
`str::from_utf8` performs (RFC 3629 well-formed byte sequences: no overlong
forms, no surrogates, nothing above U+10FFFF). `none` means invalid. -/
def utf8Chars : List Nat → Option (List Char)
  | [] => some []
  | b0 :: rest =>
    if b0 < 128 then
      (utf8Chars rest).map (fun cs => Char.ofNat b0 :: cs)
    else if 194 ≤ b0 ∧ b0 ≤ 223 then
      match rest with
      | b1 :: rest2 =>
        if 128 ≤ b1 ∧ b1 ≤ 191 then
          (utf8Chars rest2).map (fun cs => Char.ofNat ((b0 - 192) * 64 + (b1 - 128)) :: cs)
        else none
      | [] => none
    else if 224 ≤ b0 ∧ b0 ≤ 239 then
      match rest with
      | b1 :: b2 :: rest2 =>
        let lo1 := if b0 = 224 then 160 else 128
        let hi1 := if b0 = 237 then 159 else 191
        if (lo1 ≤ b1 ∧ b1 ≤ hi1) ∧ (128 ≤ b2 ∧ b2 ≤ 191) then
          (utf8Chars rest2).map
            (fun cs => Char.ofNat ((b0 - 224) * 4096 + (b1 - 128) * 64 + (b2 - 128)) :: cs)
        else none
      | _ => none
    else if 240 ≤ b0 ∧ b0 ≤ 244 then
      match rest with
      | b1 :: b2 :: b3 :: rest2 =>
        let lo1 := if b0 = 240 then 144 else 128
        let hi1 := if b0 = 244 then 143 else 191
        if (lo1 ≤ b1 ∧ b1 ≤ hi1) ∧ (128 ≤ b2 ∧ b2 ≤ 191) ∧ (128 ≤ b3 ∧ b3 ≤ 191) then
          (utf8Chars rest2).map
            (fun cs => Char.ofNat
              ((b0 - 240) * 262144 + (b1 - 128) * 4096 + (b2 - 128) * 64 + (b3 - 128)) :: cs)
        else none
      | _ => none
    else none

/-- Success condition of `std::fs::read_to_string` on a byte sequence: the
bytes decode as UTF-8, yielding the string. -/
def readToString (bytes : List Nat) : Option String :=
  (utf8Chars bytes).map String.mk

/-- What the `--file` path argument denotes on disk: whether it names a
regular file, and the raw bytes of its contents when it does.  This stands in
for the filesystem collaborator (`PathBuf::is_file`, `fs::read_to_string`). -/
structure FileArg where
  path : String
  isFile : Bool
  contents : List Nat
  deriving Repr, DecidableEq

/-- The file loader `load_data_file` (`src/main.rs` lines 291–301): reject a
path that is not
a regular file, then read the contents as a UTF-8 string, propagating the io
error on invalid UTF-8. -/
def load_data_file (f : FileArg) : Except CoapError String :=
  if !f.isFile then .error (.pathMustBeFile f.path)
  else
    match readToString f.contents with
    | some s => .ok s
    | none => .error .invalidUtf8Data

/-- The `Commands` enum (`src/main.rs` lines 28–75): the subcommand with its
parsed arguments.  The `--file` argument carries the `FileArg` description of
what its path names. -/
inductive Command where
  | get (accept : List String)
  | post (accept : List String) (contentFormat : Option String)
      (data : Option String) (file : Option FileArg)
  | put (accept : List String) (contentFormat : Option String)
      (data : Option String) (file : Option FileArg)
  | delete (accept : List String)
  deriving Repr, DecidableEq

/-- The `Args` struct (`src/main.rs` lines 14–26): URL, timeout, subcommand. -/
structure Args where
  url : String
  timeout : Nat
  command : Command
  deriving Repr, DecidableEq

/-- The pure prefix of `execute_command` (`src/main.rs` lines 303–354): for
POST/PUT, resolve the payload source (`--data` wins, else load `--file`, else
fail with the missing-payload error) and then build the request, stopping at
the `coap_send` boundary. -/
def execute_prepare (args : Args) : Except CoapError SendSpec :=
  match args.command with
  | .get accept => coap_get_prepare args.url args.timeout accept
  | .post accept contentFormat dataOpt fileOpt =>
    match (match dataOpt with
           | some d => Except.ok (some d)
           | none =>
             match fileOpt with
             | some f =>
               match load_data_file f with
               | .error e => .error e
               | .ok d => .ok (some d)
             | none => Except.ok none) with
    | .error e => .error e
    | .ok none => .error CoapError.missingPayloadSource
    | .ok (some data) => coap_post_prepare args.url args.timeout accept contentFormat data
  | .put accept contentFormat dataOpt fileOpt =>
    match (match dataOpt with
           | some d => Except.ok (some d)
           | none =>
             match fileOpt with
             | some f =>
               match load_data_file f with
               | .error e => .error e
               | .ok d => .ok (some d)
             | none => Except.ok none) with
    | .error e => .error e
    | .ok none => .error CoapError.missingPayloadSource
    | .ok (some data) => coap_put_prepare args.url args.timeout accept contentFormat data
  | .delete accept => coap_delete_prepare args.url args.timeout accept

/-- Run of `execute_command` against a transport: build, send, and on success print
the response payload text to standard output (`println!("{}", content)` is the
only write to standard output in the program, and it runs only after a
successful receive).  The result is the list of standard-output lines. -/
def execute_command (t : Transport) (args : Args) : Except CoapError (List String) :=
  match execute_prepare args with
  | .error e => .error e
  | .ok spec =>
    match t spec with
    | .error e => .error e
    | .ok resp => .ok [resp.payloadText]

/-- What an invocation leaves behind: the standard-output lines, the `ERROR:`
line on the diagnostic stream when the command failed, and the process exit
code. -/
structure ProcResult where
  stdoutLines : List String
  errLine : Option String
  exitCode : Nat
  deriving Repr, DecidableEq

/-- The entry point `main` (`src/main.rs` lines 356–362): run the command; on
error print
`ERROR: <message>` to the diagnostic stream.  `main` returns `()` on both
paths, so the process exit code is 0 in either case. -/
def main_run (t : Transport) (args : Args) : ProcResult :=
  match execute_command t args with
  | .ok outLines => ⟨outLines, none, 0⟩
  | .error e => ⟨[], some ("ERROR: " ++ e.message), 0⟩

/-- The library variant `build_coap_request_for_url` (`src/coap_helper.rs`
lines 64–95): the
library variant built on the `coap` crate's `RequestBuilder` — domain, single
raw query value, payload, then a Content-Format pair when present followed by
one `(Accept, code)` pair per accept entry; the builder appends each collected
option pair to the message in order.  (`RequestBuilder` itself is the external
`coap` crate; its build step is modelled as the corresponding option writes.) -/
def build_coap_request_for_url (url : String) (method : Method)
    (payload : Option String) (contentFormat : Option ContentFormat)
    (accept : Option (List ContentFormat)) : Except CoapError Packet :=
  match parse_coap_url url with
  | .error e => .error e
  | .ok (host, _, path, query) =>
  let r : Packet := {}
  let r := r.setMethod method
  let r := set_path r path
  let r := set_domain r host
  let r :=
    match query with
    | some q => r.setOption uriQueryNum [.str q]
    | none => r
  let r :=
    match payload with
    | some d => { r with payload := d }
    | none => r
  let opts : List (Nat × OptVal) :=
    (match contentFormat with
     | some cf => [(contentFormatNum, .u16 (content_format_as_u16 cf))]
     | none => []) ++
    (match accept with
     | some l => l.map (fun a => (acceptNum, .u16 (content_format_as_u16 a)))
     | none => [])
  let r := opts.foldl (fun r kv => r.addOption kv.1 kv.2) r
  .ok r

/-! ## Lemmas about the option store -/

theorem find_setAssoc (l : List (Nat × List OptVal)) (n m : Nat) (v : List OptVal) :
    (setAssoc l n v).find? (fun kv => kv.1 = m) =
      if m = n then some (n, v) else l.find? (fun kv => kv.1 = m) := by
  induction l with
  | nil =>
    rcases eq_or_ne m n with h | h
    · simp [setAssoc, List.find?, h]
    · simp [setAssoc, List.find?, h, Ne.symm h]
  | cons kv rest ih =>
    obtain ⟨k, w⟩ := kv
    by_cases hk : k = n
    · subst hk
      rcases eq_or_ne m k with h | h
      · simp [setAssoc, List.find?, h]
      · simp [setAssoc, List.find?, h, Ne.symm h]
    · rcases eq_or_ne m n with h | h
      · subst h
        have hkm : ¬ (k = m) := hk
        simp [setAssoc, hk, List.find?, hkm, ih]
      · by_cases hkm : k = m
        · subst hkm
          simp [setAssoc, hk, List.find?]
        · simp [setAssoc, hk, List.find?, hkm, ih, h]

theorem getOption_setOption (p : Packet) (n m : Nat) (v : List OptVal) :
    (p.setOption n v).getOption m = if m = n then v else p.getOption m := by
  unfold Packet.getOption Packet.setOption
  rcases eq_or_ne m n with h | h <;> simp [find_setAssoc, h]

theorem getOption_addOption (p : Packet) (n m : Nat) (v : OptVal) :
    (p.addOption n v).getOption m =
      if m = n then p.getOption m ++ [v] else p.getOption m := by
  rcases eq_or_ne m n with h | h
  · subst h; simp [Packet.addOption, getOption_setOption]
  · simp [Packet.addOption, getOption_setOption, h]

theorem getOption_empty (n : Nat) : (({} : Packet)).getOption n = [] := rfl

theorem method_setOption (p : Packet) (n : Nat) (v : List OptVal) :
    (p.setOption n v).method = p.method := rfl

theorem payload_setOption (p : Packet) (n : Nat) (v : List OptVal) :
    (p.setOption n v).payload = p.payload := rfl

theorem method_addOption (p : Packet) (n : Nat) (v : OptVal) :
    (p.addOption n v).method = p.method := rfl

theorem payload_addOption (p : Packet) (n : Nat) (v : OptVal) :
    (p.addOption n v).payload = p.payload := rfl

theorem getOption_setMethod (p : Packet) (m : Method) (n : Nat) :
    (p.setMethod m).getOption n = p.getOption n := rfl

theorem payload_setMethod (p : Packet) (m : Method) :
    (p.setMethod m).payload = p.payload := rfl

theorem getOption_setData (p : Packet) (d : String) (n : Nat) :
    (set_data p d).getOption n = p.getOption n := rfl

theorem payload_setData (p : Packet) (d : String) :
    (set_data p d).payload = d := rfl

/-- Every registered content-format code fits in 16 bits, so the source's
`try_into().unwrap()` in `content_format_as_u16` cannot panic. -/
theorem registry_codes_fit_u16 : ∀ c ∈ contentFormatCodes, c < 2 ^ 16 := by decide

/-! ## The accept loop -/

/-- When every token of the list translates, the accept loop succeeds and its
whole effect on the request is to append, to the Accept option, one 16-bit
value per token in the order given; every other option, the method and the
payload are untouched. -/
theorem add_accepts_ok (accepts : List String) :
    ∀ (codes : List ContentFormat) (r : Packet),
      parseFormats accepts = .ok codes →
      ∃ r', add_accepts r accepts = .ok r'
        ∧ (∀ m, r'.getOption m =
            if m = acceptNum then
              r.getOption m ++ codes.map (fun c => OptVal.u16 (content_format_as_u16 c))
            else r.getOption m)
        ∧ r'.method = r.method ∧ r'.payload = r.payload := by
  induction accepts with
  | nil =>
    intro codes r h
    simp [parseFormats] at h
    subst h
    refine ⟨r, rfl, ?_, rfl, rfl⟩
    intro m
    split <;> simp
  | cons s rest ih =>
    intro codes r h
    unfold parseFormats at h
    cases hc : parse_content_format s with
    | error e => rw [hc] at h; cases h
    | ok c =>
      rw [hc] at h
      cases hr : parseFormats rest with
      | error e => rw [hr] at h; cases h
      | ok cs =>
        rw [hr] at h
        simp at h
        subst h
        obtain ⟨r', h1, h2, h3, h4⟩ := ih cs (add_accept r c) hr
        refine ⟨r', ?_, ?_, ?_, ?_⟩
        · unfold add_accepts
          rw [hc]
          exact h1
        · intro m
          have := h2 m
          rw [this]
          unfold add_accept
          rcases eq_or_ne m acceptNum with hm | hm
          · subst hm
            simp [getOption_addOption, List.append_assoc]
          · simp [getOption_addOption, hm]
        · rw [h3]; rfl
        · rw [h4]; rfl

/-! ## Lemmas about bracket stripping and the URL resolver -/

theorem stripBrackets_bracket (m : List Char) (hnl : m.all (fun c => c ≠ '\n')) :
    stripBrackets (String.mk ('[' :: (m ++ [']']))) = String.mk m := by
  unfold stripBrackets
  have htl : (String.mk ('[' :: (m ++ [']']))).toList = '[' :: (m ++ [']']) := rfl
  rw [htl]
  rw [if_pos]
  · have : ('[' :: (m ++ [']'])).drop 1 = m ++ [']'] := rfl
    rw [this, List.dropLast_concat]
  · refine ⟨by simp, rfl, ?_, ?_⟩
    · rw [show '[' :: (m ++ [']']) = ('[' :: m) ++ [']'] from rfl, List.getLast?_concat]
    · have : ('[' :: (m ++ [']'])).drop 1 = m ++ [']'] := rfl
      rw [this, List.dropLast_concat]
      exact hnl

theorem stripBrackets_eq_self (s : String) (h : s.toList.head? ≠ some '[') :
    stripBrackets s = s := by
  unfold stripBrackets
  rw [if_neg]
  intro hcond
  exact h hcond.2.1

/-- Inverting the modelled authority parser: a returned host is either a
well-formed bracketed IPv6 literal with a non-empty interior, or a string of
plain host characters. -/
theorem parseHostPort_inv (auth : List Char) (h : String) (p : Option Nat)
    (hp : parseHostPort auth = some (h, p)) :
    (∃ inner, inner ≠ [] ∧ inner.all isV6Char ∧ h = String.mk ('[' :: (inner ++ [']']))) ∨
      h.toList.all isHostChar := by
  unfold parseHostPort at hp
  split at hp
  · -- bracketed authority
    split at hp
    · cases hp
    · next inner after heq =>
      split at hp
      · next hcond =>
        simp only [Bool.and_eq_true, ne_eq, decide_eq_true_eq] at hcond
        split at hp
        · left
          refine ⟨inner, ?_, ?_, ?_⟩
          · exact fun he => hcond.1 (by simpa using he)
          · exact hcond.2
          · injection hp with hp'
            exact (congrArg Prod.fst hp').symm
        · simp only [Option.map_eq_some'] at hp
          obtain ⟨p', hp1, hp2⟩ := hp
          left
          refine ⟨inner, ?_, ?_, ?_⟩
          · exact fun he => hcond.1 (by simpa using he)
          · exact hcond.2
          · exact (congrArg Prod.fst hp2).symm
        · cases hp
      · cases hp
  · -- unbracketed authority
    split at hp
    · split at hp
      · next hcond =>
        injection hp with hp'
        right
        have : h = String.mk auth := (congrArg Prod.fst hp').symm
        rw [this]
        exact hcond
      · cases hp
    · next h' ds heq =>
      split at hp
      · next hcond =>
        simp only [Option.map_eq_some'] at hp
        obtain ⟨p', hp1, hp2⟩ := hp
        right
        have : h = String.mk h' := (congrArg Prod.fst hp2).symm
        rw [this]
        exact hcond
      · cases hp

/-- Inverting the modelled URL parser: a returned host component comes from
the authority parser. -/
theorem urlParse_host_inv (s : String) (u : UrlParts) (h : String)
    (hu : urlParse s = some u) (hh : u.hostStr = some h) :
    ∃ auth p, parseHostPort auth = some (h, p) := by
  unfold urlParse at hu
  split at hu
  · cases hu
  · split at hu
    · cases hu
    · split at hu
      · split at hu
        · -- authority form
          simp only [] at hu
          split at hu
          · cases hu
          · rename_i hst prt heqn
            injection hu with hu'
            rw [← hu'] at hh
            simp only at hh
            injection hh with hh'
            subst hh'
            exact ⟨_, _, heqn⟩
        · -- no authority: hostStr is none
          injection hu with hu'
          rw [← hu'] at hh
          simp only at hh
          cases hh
      · cases hu

theorem isV6Char_props {c : Char} (h : isV6Char c = true) :
    c ≠ '[' ∧ c ≠ ']' ∧ c ≠ '\n' := by
  refine ⟨?_, ?_, ?_⟩ <;> (intro he; subst he; exact absurd h (by decide))

theorem isHostChar_props {c : Char} (h : isHostChar c = true) :
    c ≠ '[' ∧ c ≠ ']' := by
  refine ⟨?_, ?_⟩ <;> (intro he; subst he; exact absurd h (by decide))

/-- Pass-through direction of the URL resolver: on a parsed URL with a
non-empty host, the result is the bracket-stripped host and the verbatim
port, path and query. -/
theorem parse_coap_url_ok_of_host (url : String) (u : UrlParts) (h : String)
    (hu : urlParse url = some u) (hh : u.hostStr = some h) (hne : h ≠ "") :
    parse_coap_url url = .ok (stripBrackets h, u.port, u.path, u.query) := by
  simp only [parse_coap_url, hu, hh]
  rw [if_neg hne]

/-- Inversion of the URL resolver: a success comes from a parsed URL with a
non-empty host, and is exactly the bracket-stripped pass-through. -/
theorem parse_coap_url_ok_inv (url : String) (r : String × Option Nat × String × Option String)
    (h : parse_coap_url url = .ok r) :
    ∃ u hs, urlParse url = some u ∧ u.hostStr = some hs ∧ hs ≠ "" ∧
      r = (stripBrackets hs, u.port, u.path, u.query) := by
  unfold parse_coap_url at h
  split at h
  · cases h
  · rename_i u hequ
    split at h
    · cases h
    · rename_i hs hhs
      split at h
      · cases h
      · rename_i hne
        injection h with h'
        exact ⟨u, hs, hequ, hhs, hne, h'.symm⟩

/-- The host a successful resolve returns is non-empty and contains no
bracket characters at all (hence in particular no surrounding brackets). -/
theorem parse_coap_url_host_shape (url : String)
    (r : String × Option Nat × String × Option String)
    (h : parse_coap_url url = .ok r) :
    r.1 ≠ "" ∧ r.1.toList.all (fun c => !(c = '[' || c = ']')) := by
  obtain ⟨u, hs, hu, hh, hne, hr⟩ := parse_coap_url_ok_inv url r h
  obtain ⟨auth, p, hp⟩ := urlParse_host_inv url u hs hu hh
  rcases parseHostPort_inv auth hs p hp with ⟨inner, hinner, hv6, hform⟩ | hplain
  · -- bracketed IPv6 literal: stripping yields the non-empty interior
    have hnl : inner.all (fun c => c ≠ '\n') := by
      rw [List.all_eq_true] at hv6 ⊢
      intro c hc
      simpa using (isV6Char_props (hv6 c hc)).2.2
    have hstrip : stripBrackets hs = String.mk inner := by
      rw [hform, stripBrackets_bracket inner hnl]
    constructor
    · rw [hr]
      simp only
      rw [hstrip]
      intro hemp
      apply hinner
      have : (String.mk inner).toList = inner := rfl
      rw [← this, hemp]
      rfl
    · rw [hr]
      simp only
      rw [hstrip]
      have : (String.mk inner).toList = inner := rfl
      rw [this, List.all_eq_true] at *
      intro c hc
      obtain ⟨h1, h2, _⟩ := isV6Char_props (hv6 c hc)
      simp [h1, h2]
  · -- plain host: stripping is the identity
    have hstrip : stripBrackets hs = hs := by
      apply stripBrackets_eq_self
      intro hhead
      cases hcs : hs.toList with
      | nil => rw [hcs] at hhead; cases hhead
      | cons c cs =>
        rw [hcs] at hhead
        injection hhead with hc
        rw [List.all_eq_true, hcs] at hplain
        exact (isHostChar_props (hplain c (by simp))).1 hc
  -- hmm need to finish
    constructor
    · rw [hr]
      simp only
      rw [hstrip]
      exact hne
    · rw [hr]
      simp only
      rw [hstrip]
      rw [List.all_eq_true] at hplain ⊢
      intro c hc
      obtain ⟨h1, h2⟩ := isHostChar_props (hplain c hc)
      simp [h1, h2]

/-- Inversion of `coap_request_for_url`: a success comes from a successful
resolve, and the produced request is fresh except for Uri-Host, Uri-Path and
(when the URL has a query) a single raw Uri-Query value. -/
theorem coap_request_for_url_ok (url : String) (host : String) (port : Option Nat) (req : Packet)
    (h : coap_request_for_url url = .ok (host, port, req)) :
    ∃ path query, parse_coap_url url = .ok (host, port, path, query) ∧
      req.method = none ∧ req.payload = "" ∧
      req.getOption acceptNum = [] ∧
      req.getOption contentFormatNum = [] ∧
      req.getOption uriHostNum = [.str host] ∧
      req.getOption uriQueryNum =
        (match query with | some q => [OptVal.str q] | none => []) := by
  unfold coap_request_for_url at h
  split at h
  · cases h
  · rename_i host' port' path query hequ
    simp only [] at h
    simp only [Except.ok.injEq, Prod.mk.injEq] at h
    obtain ⟨rfl, rfl, hreq⟩ := h
    refine ⟨path, query, hequ, ?_, ?_, ?_, ?_, ?_, ?_⟩ <;>
      (rw [← hreq]; cases query <;>
        simp [set_query, set_path, set_domain, getOption_setOption, getOption_empty,
          acceptNum, contentFormatNum, uriHostNum, uriPathNum, uriQueryNum,
          method_setOption, payload_setOption])

/-- On success the accept loop leaves every other option untouched. -/
theorem add_accepts_preserves (accepts : List String) :
    ∀ (r r' : Packet), add_accepts r accepts = .ok r' →
      ∀ m, m ≠ acceptNum → r'.getOption m = r.getOption m := by
  induction accepts with
  | nil =>
    intro r r' h m hm
    injection h with h'
    rw [← h']
  | cons s rest ih =>
    intro r r' h m hm
    unfold add_accepts at h
    split at h
    · cases h
    · rename_i c hc
      rw [ih (add_accept r c) r' h m hm]
      unfold add_accept
      rw [getOption_addOption, if_neg hm]

/-- Accept options after `coap_get_prepare`: one per token, in order. -/
theorem coap_get_prepare_accepts (url : String) (timeout : Nat) (accepts : List String)
    (codes : List ContentFormat) (spec : SendSpec)
    (hc : parseFormats accepts = .ok codes)
    (h : coap_get_prepare url timeout accepts = .ok spec) :
    spec.request.getOption acceptNum =
      codes.map (fun c => OptVal.u16 (content_format_as_u16 c)) := by
  unfold coap_get_prepare at h
  split at h
  · cases h
  · rename_i host port request hequ
    obtain ⟨path, query, hpu, hm, hp, hacc, hcf, hhost, hq⟩ :=
      coap_request_for_url_ok url host port request hequ
    obtain ⟨r', h1, h2, h3, h4⟩ := add_accepts_ok accepts codes (request.setMethod .get) hc
    rw [h1] at h
    simp only [] at h
    injection h with h'
    rw [← h']
    have := h2 acceptNum
    rw [if_pos rfl] at this
    simp only [this, getOption_setMethod, hacc, List.nil_append]

/-- Accept options after `coap_post_prepare`: one per token, in order. -/
theorem coap_post_prepare_accepts (url : String) (timeout : Nat) (accepts : List String)
    (codes : List ContentFormat) (cf : Option String) (data : String) (spec : SendSpec)
    (hc : parseFormats accepts = .ok codes)
    (h : coap_post_prepare url timeout accepts cf data = .ok spec) :
    spec.request.getOption acceptNum =
      codes.map (fun c => OptVal.u16 (content_format_as_u16 c)) := by
  unfold coap_post_prepare at h
  split at h
  · cases h
  · rename_i host port request hequ
    obtain ⟨path, query, hpu, hm, hp, hacc, hcf, hhost, hq⟩ :=
      coap_request_for_url_ok url host port request hequ
    obtain ⟨r', h1, h2, h3, h4⟩ := add_accepts_ok accepts codes (request.setMethod .post) hc
    rw [h1] at h
    simp only [] at h
    have hral : r'.getOption acceptNum =
        codes.map (fun c => OptVal.u16 (content_format_as_u16 c)) := by
      have := h2 acceptNum
      rw [if_pos rfl] at this
      simp only [this, getOption_setMethod, hacc, List.nil_append]
    split at h
    · cases h
    · rename_i request2 hcf2
      injection h with h'
      rw [← h']
      simp only [getOption_setData]
      -- request2 is r' with possibly a Content-Format option set
      rcases cf with _ | cft
      · injection hcf2 with h2'
        rw [← h2', hral]
      · simp only [] at hcf2
        split at hcf2
        · cases hcf2
        · injection hcf2 with h2'
          rw [← h2']
          unfold set_content_format
          rw [getOption_setOption, if_neg (by decide), hral]

/-- Accept options after `coap_put_prepare`: one per token, in order. -/
theorem coap_put_prepare_accepts (url : String) (timeout : Nat) (accepts : List String)
    (codes : List ContentFormat) (cf : Option String) (data : String) (spec : SendSpec)
    (hc : parseFormats accepts = .ok codes)
    (h : coap_put_prepare url timeout accepts cf data = .ok spec) :
    spec.request.getOption acceptNum =
      codes.map (fun c => OptVal.u16 (content_format_as_u16 c)) := by
  unfold coap_put_prepare at h
  split at h
  · cases h
  · rename_i host port request hequ
    obtain ⟨path, query, hpu, hm, hp, hacc, hcf, hhost, hq⟩ :=
      coap_request_for_url_ok url host port request hequ
    obtain ⟨r', h1, h2, h3, h4⟩ := add_accepts_ok accepts codes (request.setMethod .put) hc
    rw [h1] at h
    simp only [] at h
    have hral : r'.getOption acceptNum =
        codes.map (fun c => OptVal.u16 (content_format_as_u16 c)) := by
      have := h2 acceptNum
      rw [if_pos rfl] at this
      simp only [this, getOption_setMethod, hacc, List.nil_append]
    split at h
    · cases h
    · rename_i request2 hcf2
      injection h with h'
      rw [← h']
      simp only [getOption_setData]
      rcases cf with _ | cft
      · injection hcf2 with h2'
        rw [← h2', hral]
      · simp only [] at hcf2
        split at hcf2
        · cases hcf2
        · injection hcf2 with h2'
          rw [← h2']
          unfold set_content_format
          rw [getOption_setOption, if_neg (by decide), hral]

/-- Accept options after `coap_delete_prepare`: one per token, in order. -/
theorem coap_delete_prepare_accepts (url : String) (timeout : Nat) (accepts : List String)
    (codes : List ContentFormat) (spec : SendSpec)
    (hc : parseFormats accepts = .ok codes)
    (h : coap_delete_prepare url timeout accepts = .ok spec) :
    spec.request.getOption acceptNum =
      codes.map (fun c => OptVal.u16 (content_format_as_u16 c)) := by
  unfold coap_delete_prepare at h
  split at h
  · cases h
  · rename_i host port request hequ
    obtain ⟨path, query, hpu, hm, hp, hacc, hcf, hhost, hq⟩ :=
      coap_request_for_url_ok url host port request hequ
    obtain ⟨r', h1, h2, h3, h4⟩ := add_accepts_ok accepts codes (request.setMethod .delete) hc
    rw [h1] at h
    simp only [] at h
    injection h with h'
    rw [← h']
    have := h2 acceptNum
    rw [if_pos rfl] at this
    simp only [this, getOption_setMethod, hacc, List.nil_append]

/-- Folding `addOption` over a pair list appends, per option number, the
matching values in order. -/
theorem getOption_foldl_addOption (l : List (Nat × OptVal)) (r : Packet) (n : Nat) :
    (l.foldl (fun r kv => r.addOption kv.1 kv.2) r).getOption n
      = r.getOption n ++ (l.filter (fun kv => kv.1 = n)).map Prod.snd := by
  induction l generalizing r with
  | nil => simp
  | cons kv rest ih =>
    obtain ⟨k, v⟩ := kv
    simp only [List.foldl_cons, ih, List.filter_cons]
    rcases eq_or_ne k n with hk | hk
    · subst hk
      simp [getOption_addOption, List.append_assoc]
    · simp [getOption_addOption, hk, Ne.symm hk]

theorem filter_accept_pairs (l : List ContentFormat) :
    ((l.map (fun a => (acceptNum, OptVal.u16 (content_format_as_u16 a)))).filter
      (fun kv => kv.1 = acceptNum)).map Prod.snd =
      l.map (fun c => OptVal.u16 (content_format_as_u16 c)) := by
  induction l with
  | nil => rfl
  | cons a t ih => simp [List.filter_cons, ih]

theorem filter_cf_pair (cf : Option ContentFormat) :
    ((match cf with
      | some c => [(contentFormatNum, OptVal.u16 (content_format_as_u16 c))]
      | none => [] : List (Nat × OptVal)).filter (fun kv => kv.1 = acceptNum)) = [] := by
  cases cf <;> simp [List.filter_cons, acceptNum, contentFormatNum]

theorem getOption_payload_update (p : Packet) (d : String) (n : Nat) :
    (Packet.mk p.method p.options d).getOption n = p.getOption n := rfl

/-- Accept options after `build_coap_request_for_url`: one per list entry, in
order. -/
theorem build_request_accepts (url : String) (method : Method) (payload : Option String)
    (cf : Option ContentFormat) (accepts : List ContentFormat) (req : Packet)
    (h : build_coap_request_for_url url method payload cf (some accepts) = .ok req) :
    req.getOption acceptNum =
      accepts.map (fun c => OptVal.u16 (content_format_as_u16 c)) := by
  unfold build_coap_request_for_url at h
  split at h
  · cases h
  · rename_i host port' path query hequ
    simp only [] at h
    injection h with h'
    rw [← h', getOption_foldl_addOption, List.filter_append, List.map_append,
      filter_accept_pairs, filter_cf_pair]
    cases payload <;> cases query <;>
      simp [getOption_payload_update, set_domain, set_path, getOption_setOption,
        getOption_setMethod, getOption_empty, acceptNum, uriHostNum, uriPathNum, uriQueryNum]

/-! ## Claims -/

/-- C1: For every accept list of content-format tokens passed to a
GET/POST/PUT/DELETE command, the assembled request contains exactly one
Accept option occurrence per list entry, in the order given, with no
deduplication, each carrying that entry's 16-bit registry code; in
particular `accept = ["application/json","application/cbor"]` yields exactly
two Accept options with codes 50 and 60 in that order (and a repeated token
is repeated, not deduplicated). -/
theorem claim_accept_one_option_per_entry :
    (∀ url timeout accepts codes spec, parseFormats accepts = .ok codes →
      coap_get_prepare url timeout accepts = .ok spec →
      spec.request.getOption acceptNum =
        codes.map (fun c => OptVal.u16 (content_format_as_u16 c))) ∧
    (∀ url timeout accepts codes cf data spec, parseFormats accepts = .ok codes →
      coap_post_prepare url timeout accepts cf data = .ok spec →
      spec.request.getOption acceptNum =
        codes.map (fun c => OptVal.u16 (content_format_as_u16 c))) ∧
    (∀ url timeout accepts codes cf data spec, parseFormats accepts = .ok codes →
      coap_put_prepare url timeout accepts cf data = .ok spec →
      spec.request.getOption acceptNum =
        codes.map (fun c => OptVal.u16 (content_format_as_u16 c))) ∧
    (∀ url timeout accepts codes spec, parseFormats accepts = .ok codes →
      coap_delete_prepare url timeout accepts = .ok spec →
      spec.request.getOption acceptNum =
        codes.map (fun c => OptVal.u16 (content_format_as_u16 c))) ∧
    (∀ url method payload cf accepts req,
      build_coap_request_for_url url method payload cf (some accepts) = .ok req →
      req.getOption acceptNum =
        accepts.map (fun c => OptVal.u16 (content_format_as_u16 c))) ∧
    (coap_get_prepare "coap://h/p" 1 ["application/json", "application/cbor"]).map
      (fun s => s.request.getOption acceptNum) = .ok [.u16 50, .u16 60] ∧
    (coap_get_prepare "coap://h/p" 1 ["50", "50"]).map
      (fun s => s.request.getOption acceptNum) = .ok [.u16 50, .u16 50] := by
  refine ⟨?_, ?_, ?_, ?_, ?_, by decide, by decide⟩
  · intro url timeout accepts codes spec hc h
    exact coap_get_prepare_accepts url timeout accepts codes spec hc h
  · intro url timeout accepts codes cf data spec hc h
    exact coap_post_prepare_accepts url timeout accepts codes cf data spec hc h
  · intro url timeout accepts codes cf data spec hc h
    exact coap_put_prepare_accepts url timeout accepts codes cf data spec hc h
  · intro url timeout accepts codes spec hc h
    exact coap_delete_prepare_accepts url timeout accepts codes spec hc h
  · intro url method payload cf accepts req h
    exact build_request_accepts url method payload cf accepts req h

/-- Witness for C1 at a concrete input: the token list `["50","0"]`
translates to codes `[50, 0]` and the assembled GET request carries exactly
those two Accept options in order. -/
theorem claim_accept_one_option_per_entry_witness :
    ({ host := "h", port := none, timeout := 1,
       request := { method := some Method.get,
                    options := [(3, [OptVal.str "h"]), (11, [OptVal.str "p"]),
                                (17, [OptVal.u16 50, OptVal.u16 0])],
                    payload := "" } } : SendSpec).request.getOption acceptNum =
      [50, 0].map (fun c => OptVal.u16 (content_format_as_u16 c)) :=
  claim_accept_one_option_per_entry.1 "coap://h/p" 1 ["50", "0"] [50, 0] _
    (by decide) (by decide)

/-- C5: For every syntactically valid URL with a non-empty host,
`parse_coap_url` returns a host string with no surrounding square brackets,
stripping them when the URL used bracketed IPv6 notation; in particular
parsing `coap://[::1]:5683/a` yields host `::1`, port 5683, path `/a`. -/
theorem claim_host_brackets_stripped :
    (∀ url u h, urlParse url = some u → u.hostStr = some h → h ≠ "" →
      parse_coap_url url = .ok (stripBrackets h, u.port, u.path, u.query)) ∧
    (∀ m : List Char, m.all (fun c => c ≠ '\n') →
      stripBrackets (String.mk ('[' :: (m ++ [']']))) = String.mk m) ∧
    (∀ url r, parse_coap_url url = .ok r →
      r.1.toList.all (fun c => !(c = '[' || c = ']'))) ∧
    parse_coap_url "coap://[::1]:5683/a" = .ok ("::1", some 5683, "/a", none) := by
  refine ⟨?_, ?_, ?_, by decide⟩
  · intro url u h hu hh hne
    exact parse_coap_url_ok_of_host url u h hu hh hne
  · intro m hnl
    exact stripBrackets_bracket m hnl
  · intro url r h
    exact (parse_coap_url_host_shape url r h).2

/-- Witness for C5 at a concrete input: the parsed form of
`coap://[::1]:5683/a` has host component `[::1]`, and the resolver returns
it bracket-stripped with the port, path and query passed through. -/
theorem claim_host_brackets_stripped_witness :
    parse_coap_url "coap://[::1]:5683/a" =
      .ok (stripBrackets "[::1]", some 5683, "/a", none) :=
  claim_host_brackets_stripped.1 "coap://[::1]:5683/a"
    ⟨some "[::1]", some 5683, "/a", none⟩ "[::1]" (by decide) (by decide) (by decide)

/-- C6: For every input string that parses as a URL but has no host
component or an empty host component, `parse_coap_url` fails with the
`InvalidHost` error (`"host error"`); it never returns a result with an
empty host. -/
theorem claim_missing_host_rejected :
    (∀ url u, urlParse url = some u → (u.hostStr = none ∨ u.hostStr = some "") →
      parse_coap_url url = .error .hostError) ∧
    (∀ url r, parse_coap_url url = .ok r → r.1 ≠ "") ∧
    parse_coap_url "coap:///path" = .error .hostError := by
  refine ⟨?_, ?_, by decide⟩
  · intro url u hu hh
    rcases hh with hh | hh <;> simp [parse_coap_url, hu, hh]
  · intro url r h
    exact (parse_coap_url_host_shape url r h).1

/-- Witness for C6 at a concrete input: `coap:///path` parses with an empty
host component and the resolver rejects it with the host error. -/
theorem claim_missing_host_rejected_witness :
    parse_coap_url "coap:///path" = .error .hostError :=
  claim_missing_host_rejected.1 "coap:///path" ⟨some "", none, "/path", none⟩
    (by decide) (Or.inr rfl)

/-- C7: For every token string: if the token parses as a non-negative
integer, `parse_content_format` succeeds exactly when the integer is a
recognized registry code and fails with the unknown-code error otherwise
(e.g. `"999999"` fails); if the token does not parse as a non-negative
integer, it succeeds exactly when it is one of the five fixed MIME strings
and fails with the unsupported-string error otherwise (e.g. `"text/unknown"`
fails). -/
theorem claim_content_format_translation :
    (∀ s n, parseUsize s = some n → n ∈ contentFormatCodes →
      parse_content_format s = .ok n) ∧
    (∀ s n, parseUsize s = some n → n ∉ contentFormatCodes →
      parse_content_format s = .error (.invalidContentFormatNumber s)) ∧
    (∀ s, parseUsize s = none →
      s ≠ "text/plain" → s ≠ "application/json" → s ≠ "application/xml" →
      s ≠ "application/cbor" → s ≠ "application/octet-stream" →
      parse_content_format s = .error (.unsupportedContentFormatString s)) ∧
    (∀ s, (s = "text/plain" ∨ s = "application/json" ∨ s = "application/xml" ∨
        s = "application/cbor" ∨ s = "application/octet-stream") →
      ∃ c, parse_content_format s = .ok c ∧ c ∈ contentFormatCodes) ∧
    parse_content_format "999999" = .error (.invalidContentFormatNumber "999999") ∧
    parse_content_format "text/unknown" =
      .error (.unsupportedContentFormatString "text/unknown") := by
  refine ⟨?_, ?_, ?_, ?_, by decide, by decide⟩
  · intro s n hp hm
    simp [parse_content_format, hp, hm]
  · intro s n hp hm
    simp [parse_content_format, hp, hm]
  · intro s hp h1 h2 h3 h4 h5
    unfold parse_content_format
    rw [hp]
    split <;> simp_all
  · intro s hs
    rcases hs with rfl | rfl | rfl | rfl | rfl
    · exact ⟨0, by decide, by decide⟩
    · exact ⟨50, by decide, by decide⟩
    · exact ⟨41, by decide, by decide⟩
    · exact ⟨60, by decide, by decide⟩
    · exact ⟨42, by decide, by decide⟩

/-- Witness for C7 at concrete inputs: `"50"` is a recognized numeric code,
`"77"` parses as a number but is not registered, and `"text/html"` is not a
recognized MIME string. -/
theorem claim_content_format_translation_witness :
    parse_content_format "50" = .ok 50 ∧
    parse_content_format "77" = .error (.invalidContentFormatNumber "77") ∧
    parse_content_format "text/html" =
      .error (.unsupportedContentFormatString "text/html") :=
  ⟨claim_content_format_translation.1 "50" 50 (by decide) (by decide),
   claim_content_format_translation.2.1 "77" 77 (by decide) (by decide),
   claim_content_format_translation.2.2.1 "text/html" (by decide)
     (by decide) (by decide) (by decide) (by decide) (by decide)⟩

/-- The Uri-Query option of a freshly built request holds exactly the parsed
URL's raw query as its single value, and nothing when the URL has none. -/
theorem coap_request_for_url_query (url : String) (u : UrlParts) (host : String)
    (port : Option Nat) (req : Packet) (hu : urlParse url = some u)
    (h : coap_request_for_url url = .ok (host, port, req)) :
    req.getOption uriQueryNum =
      (match u.query with | some q => [OptVal.str q] | none => []) := by
  obtain ⟨path, query, hpu, hm, hp, hacc, hcf, hhost, hq⟩ :=
    coap_request_for_url_ok url host port req h
  obtain ⟨u', hs, hu', hh', hne', hr'⟩ := parse_coap_url_ok_inv url _ hpu
  rw [hu] at hu'
  injection hu' with he
  subst he
  have hqq : query = u.query := by
    have := congrArg (fun t => t.2.2.2) hr'
    simpa using this
  rw [hq, hqq]

/-- C8: For every URL whose query component is present, the assembled request
carries the entire raw query string as exactly one Uri-Query option value
(not split on `&` into multiple occurrences, not decoded or re-escaped); when
the URL has no query component, no Uri-Query option is set. -/
theorem claim_query_single_raw_option :
    (∀ url u host port req, urlParse url = some u →
      coap_request_for_url url = .ok (host, port, req) →
      req.getOption uriQueryNum =
        (match u.query with | some q => [OptVal.str q] | none => [])) ∧
    (∀ url u timeout accepts spec, urlParse url = some u →
      coap_get_prepare url timeout accepts = .ok spec →
      spec.request.getOption uriQueryNum =
        (match u.query with | some q => [OptVal.str q] | none => [])) ∧
    (coap_request_for_url "coap://h/p?x=1&y=2").map
      (fun r => r.2.2.getOption uriQueryNum) = .ok [OptVal.str "x=1&y=2"] ∧
    (coap_request_for_url "coap://h/p").map
      (fun r => r.2.2.getOption uriQueryNum) = .ok [] := by
  refine ⟨?_, ?_, by decide, by decide⟩
  · intro url u host port req hu h
    exact coap_request_for_url_query url u host port req hu h
  · intro url u timeout accepts spec hu h
    unfold coap_get_prepare at h
    split at h
    · cases h
    · rename_i host port request hequ
      split at h
      · cases h
      · rename_i r' hacc
        injection h with h'
        rw [← h']
        have := add_accepts_preserves accepts _ r' hacc uriQueryNum (by decide)
        simp only [] at this ⊢
        rw [this, getOption_setMethod]
        exact coap_request_for_url_query url u host port request hu hequ

/-- Witness for C8 at a concrete input: `coap://h/p?a=1&b=2` parses with raw
query `a=1&b=2`, and the built request holds that whole string as the single
Uri-Query value. -/
theorem claim_query_single_raw_option_witness :
    ({ method := none,
       options := [(3, [OptVal.str "h"]), (11, [OptVal.str "p"]),
                   (15, [OptVal.str "a=1&b=2"])],
       payload := "" } : Packet).getOption uriQueryNum =
      (match (⟨some "h", none, "/p", some "a=1&b=2"⟩ : UrlParts).query with
       | some q => [OptVal.str q] | none => []) :=
  claim_query_single_raw_option.1 "coap://h/p?a=1&b=2"
    ⟨some "h", none, "/p", some "a=1&b=2"⟩ "h" none _ (by decide) (by decide)

/-- C9: For every URL lacking an explicit port, `parse_coap_url` returns an
absent port and the dispatch layer connects using port 5683; for every URL
with an explicit port, that port is used verbatim. -/
theorem claim_default_port_5683 :
    (∀ url u h, urlParse url = some u → u.hostStr = some h → h ≠ "" →
      (parse_coap_url url).map (fun r => r.2.1) = .ok u.port) ∧
    (∀ spec : SendSpec, spec.port = none → coap_send_addr spec = (spec.host, 5683)) ∧
    (∀ (spec : SendSpec) (p : Nat), spec.port = some p →
      coap_send_addr spec = (spec.host, p)) ∧
    (coap_get_prepare "coap://h/p" 1 []).map coap_send_addr = .ok ("h", 5683) ∧
    (coap_get_prepare "coap://h:7/p" 1 []).map coap_send_addr = .ok ("h", 7) := by
  refine ⟨?_, ?_, ?_, by decide, by decide⟩
  · intro url u h hu hh hne
    rw [parse_coap_url_ok_of_host url u h hu hh hne]
    rfl
  · intro spec h
    simp [coap_send_addr, h]
  · intro spec p h
    simp [coap_send_addr, h]

/-- Witness for C9 at concrete inputs: `coap://h/p` resolves with no port and
dispatch substitutes 5683; an explicit port is used verbatim. -/
theorem claim_default_port_5683_witness :
    (parse_coap_url "coap://h/p").map (fun r => r.2.1) = .ok none ∧
    coap_send_addr ⟨"h", none, 1, {}⟩ = ("h", 5683) ∧
    coap_send_addr ⟨"h", some 7, 1, {}⟩ = ("h", 7) :=
  ⟨claim_default_port_5683.1 "coap://h/p" ⟨some "h", none, "/p", none⟩ "h"
      (by decide) (by decide) (by decide),
   claim_default_port_5683.2.1 ⟨"h", none, 1, {}⟩ rfl,
   claim_default_port_5683.2.2.1 ⟨"h", some 7, 1, {}⟩ 7 rfl⟩

/-- C3: For every POST or PUT invocation that supplies neither `--data` nor
`--file`, the command fails with the missing-payload error before any URL
parsing, connection, or send is attempted: the result is this error for every
URL string (even an unparseable one) and every transport, so no network call
occurs. -/
theorem claim_missing_payload_before_network :
    (∀ (t : Transport) (url : String) (timeout : Nat) (accept : List String)
        (cf : Option String),
      execute_command t ⟨url, timeout, .post accept cf none none⟩ =
        .error .missingPayloadSource) ∧
    (∀ (t : Transport) (url : String) (timeout : Nat) (accept : List String)
        (cf : Option String),
      execute_command t ⟨url, timeout, .put accept cf none none⟩ =
        .error .missingPayloadSource) := by
  constructor <;> (intro t url timeout accept cf; rfl)

/-- Witness for C3 at a concrete input: a POST with no payload source fails
with the missing-payload error even with a transport that would answer and a
URL that does not parse. -/
theorem claim_missing_payload_before_network_witness :
    execute_command (fun _ => .ok ⟨"2.05 Content", "x"⟩)
      ⟨"not a url", 1, .post [] none none none⟩ = .error .missingPayloadSource :=
  claim_missing_payload_before_network.1 (fun _ => .ok ⟨"2.05 Content", "x"⟩)
    "not a url" 1 [] none

/-- C10: For every POST or PUT invocation using `--file` with a path that
names an existing regular file whose contents are not valid UTF-8, the
command fails with an error before any network activity (the result is the
UTF-8 read error for every URL and every transport): file-sourced payloads
are implicitly restricted to valid UTF-8 text, because the file is read via
`read_to_string`. -/
theorem claim_file_payload_utf8_only :
    (∀ (bytes : List Nat), readToString bytes = none →
      ∀ (t : Transport) (url : String) (timeout : Nat) (accept : List String)
        (cf : Option String) (path : String),
        execute_command t ⟨url, timeout, .post accept cf none (some ⟨path, true, bytes⟩)⟩ =
          .error .invalidUtf8Data) ∧
    (∀ (bytes : List Nat), readToString bytes = none →
      ∀ (t : Transport) (url : String) (timeout : Nat) (accept : List String)
        (cf : Option String) (path : String),
        execute_command t ⟨url, timeout, .put accept cf none (some ⟨path, true, bytes⟩)⟩ =
          .error .invalidUtf8Data) ∧
    readToString [104, 105] = some "hi" := by
  refine ⟨?_, ?_, by decide⟩ <;>
    (intro bytes hb t url timeout accept cf path
     simp [execute_command, execute_prepare, load_data_file, hb])

/-- Witness for C10 at a concrete input: the single byte `0xFF` is not valid
UTF-8 and a POST sourcing its payload from such a file fails with the UTF-8
read error. -/
theorem claim_file_payload_utf8_only_witness :
    execute_command (fun _ => .ok ⟨"2.05 Content", "x"⟩)
      ⟨"coap://h/p", 1, .post [] none none (some ⟨"f.bin", true, [255]⟩)⟩ =
      .error .invalidUtf8Data :=
  claim_file_payload_utf8_only.1 [255] (by decide)
    (fun _ => .ok ⟨"2.05 Content", "x"⟩) "coap://h/p" 1 [] none "f.bin"

/-- C2 counterexample: an invocation that supplies both `--data` and `--file`
is not rejected — it is processed normally.  Here both are supplied (and the
`--file` path does not even name a regular file), yet the POST completes and
prints the response: `--data` wins and `--file` is never looked at. -/
theorem claim_data_file_exclusive_cex :
    execute_command (fun _ => .ok ⟨"2.05 Content", "resp"⟩)
      ⟨"coap://h/p", 1, .post [] none (some "d") (some ⟨"payload.bin", false, []⟩)⟩ =
      .ok ["resp"] := rfl

/-- C2 (amended): `--data` and `--file` are not mutually exclusive: for every
POST or PUT invocation supplying `--data`, the `--file` argument is ignored
entirely (the invocation behaves exactly as if `--file` were absent, and the
file is never read or validated); such an invocation is processed, not
rejected. -/
theorem claim_data_takes_precedence :
    (∀ (t : Transport) (url : String) (timeout : Nat) (accept : List String)
        (cf : Option String) (d : String) (f : Option FileArg),
      execute_command t ⟨url, timeout, .post accept cf (some d) f⟩ =
        execute_command t ⟨url, timeout, .post accept cf (some d) none⟩) ∧
    (∀ (t : Transport) (url : String) (timeout : Nat) (accept : List String)
        (cf : Option String) (d : String) (f : Option FileArg),
      execute_command t ⟨url, timeout, .put accept cf (some d) f⟩ =
        execute_command t ⟨url, timeout, .put accept cf (some d) none⟩) := by
  constructor <;> (intro t url timeout accept cf d f; rfl)

/-- Witness for the amended C2 at a concrete input: with both sources given,
the POST behaves exactly as if `--file` were absent. -/
theorem claim_data_takes_precedence_witness :
    execute_command (fun _ => .ok ⟨"2.05 Content", "resp"⟩)
      ⟨"coap://h/p", 1, .post [] none (some "d") (some ⟨"payload.bin", false, []⟩)⟩ =
      execute_command (fun _ => .ok ⟨"2.05 Content", "resp"⟩)
        ⟨"coap://h/p", 1, .post [] none (some "d") none⟩ :=
  claim_data_takes_precedence.1 (fun _ => .ok ⟨"2.05 Content", "resp"⟩)
    "coap://h/p" 1 [] none "d" (some ⟨"payload.bin", false, []⟩)

/-- C4 counterexample: on a failing invocation the `ERROR:` line is printed
and standard output stays empty, but the process exit code is 0, not
non-zero — `main` prints the error and returns `()` normally. -/
theorem claim_error_exit_nonzero_cex :
    execute_command (fun _ => .ok ⟨"2.05 Content", "resp"⟩) ⟨"://bad", 1, .get []⟩ =
        .error .urlError ∧
    main_run (fun _ => .ok ⟨"2.05 Content", "resp"⟩) ⟨"://bad", 1, .get []⟩ =
        ⟨[], some "ERROR: url error", 0⟩ ∧
    (main_run (fun _ => .ok ⟨"2.05 Content", "resp"⟩) ⟨"://bad", 1, .get []⟩).exitCode
        = 0 :=
  ⟨rfl, rfl, rfl⟩

/-- C4 (amended): For every invocation whose execution returns an error, an
`ERROR: <message>` line is printed to the diagnostic stream, nothing is
printed to standard output — but the process exits with code 0, not a
non-zero code. -/
theorem claim_error_reported_no_stdout :
    ∀ (t : Transport) (args : Args) (e : CoapError),
      execute_command t args = .error e →
      main_run t args = ⟨[], some ("ERROR: " ++ e.message), 0⟩ := by
  intro t args e h
  unfold main_run
  rw [h]

/-- Witness for the amended C4 at a concrete input: an unparseable URL makes
the run print `ERROR: url error` to the diagnostic stream, print nothing to
standard output, and exit with code 0. -/
theorem claim_error_reported_no_stdout_witness :
    main_run (fun _ => .ok ⟨"2.05 Content", "resp"⟩) ⟨"://bad", 1, .get []⟩ =
      ⟨[], some ("ERROR: " ++ CoapError.urlError.message), 0⟩ :=
  claim_error_reported_no_stdout (fun _ => .ok ⟨"2.05 Content", "resp"⟩)
    ⟨"://bad", 1, .get []⟩ .urlError rfl

end CoapCli
